import Mathlib

/-!
# pcre2-test: the `Pcre2Match` wrapper and the driver `main`

A shallow embedding of `src/main.cpp`.

* A `std::string` is a `String` read as its sequence of code units (one `Char` per code unit),
  so `size()` is `String.length` and `operator<` is the lexicographic order on the codes.
* The PCRE2 library and the `cFileList` class of librepfunc are collaborators that live outside
  the repository.  They enter as parameters: the values `H` that `pcre2.h` gives the option
  macros, an `Engine` record of the four library functions the wrapper calls, and a listing
  function.  Every call made to a collaborator is recorded, with its arguments, in a call log,
  so that statements of the form "the engine is called with ..." or "no listing is requested"
  are statements about that log.
* A pointer member (`re`, `match_data`) is an `Option`: `none` is `nullptr`, `some x` is a
  valid pointer to a block whose current contents are `x`.
* The constructor sets `PCRE2_UTF` together with `PCRE2_NO_UTF_CHECK` and hands the pattern
  over unchecked.  PCRE2 leaves its behaviour undefined for a pattern that is not valid UTF-8
  in that case, and the call may never return.  So the compile operation of an `Engine` has an
  `Option` result, `none` for a call that does not return, and the constructor and `main`
  have one too.
-/

namespace Pcre2Test

/-! ## The options of `pcre2.h` named in the call to `pcre2_compile` -/

/-- The option macros the constructor names, on active and on commented-out lines, in source
order. -/
inductive CompileOption where
  | PCRE2_ANCHORED
  | PCRE2_ALLOW_EMPTY_CLASS
  | PCRE2_ALT_BSUX
  | PCRE2_ALT_CIRCUMFLEX
  | PCRE2_ALT_VERBNAMES
  | PCRE2_AUTO_CALLOUT
  | PCRE2_CASELESS
  | PCRE2_DOLLAR_ENDONLY
  | PCRE2_DOTALL
  | PCRE2_DUPNAMES
  | PCRE2_ENDANCHORED
  | PCRE2_EXTENDED
  | PCRE2_FIRSTLINE
  | PCRE2_LITERAL
  | PCRE2_MATCH_INVALID_UTF
  | PCRE2_MATCH_UNSET_BACKREF
  | PCRE2_MULTILINE
  | PCRE2_NEVER_BACKSLASH_C
  | PCRE2_NEVER_UCP
  | PCRE2_NEVER_UTF
  | PCRE2_NO_AUTO_CAPTURE
  | PCRE2_NO_AUTO_POSSESS
  | PCRE2_NO_DOTSTAR_ANCHOR
  | PCRE2_NO_START_OPTIMIZE
  | PCRE2_NO_UTF_CHECK
  | PCRE2_UCP
  | PCRE2_UNGREEDY
  | PCRE2_USE_OFFSET_LIMIT
  | PCRE2_UTF
  deriving DecidableEq, Repr

open CompileOption

/-- The third argument of `pcre2_compile` in the constructor, `0 | PCRE2_CASELESS | ...`: the
lines that are not commented out, in source order.  The header `pcre2.h` is not part of the
repository; `H` gives the value the header defines for each option macro. -/
def compile_options (H : CompileOption → Nat) : Nat :=
  0 ||| H PCRE2_CASELESS ||| H PCRE2_DUPNAMES ||| H PCRE2_NEVER_BACKSLASH_C ||| H PCRE2_NEVER_UCP
    ||| H PCRE2_NO_UTF_CHECK ||| H PCRE2_UTF

/-- The values of the option macros in the header of PCRE2 10.x. -/
def pcre2_h : CompileOption → Nat
  | PCRE2_ANCHORED => 0x80000000
  | PCRE2_ALLOW_EMPTY_CLASS => 0x00000001
  | PCRE2_ALT_BSUX => 0x00000002
  | PCRE2_ALT_CIRCUMFLEX => 0x00200000
  | PCRE2_ALT_VERBNAMES => 0x00400000
  | PCRE2_AUTO_CALLOUT => 0x00000004
  | PCRE2_CASELESS => 0x00000008
  | PCRE2_DOLLAR_ENDONLY => 0x00000010
  | PCRE2_DOTALL => 0x00000020
  | PCRE2_DUPNAMES => 0x00000040
  | PCRE2_ENDANCHORED => 0x20000000
  | PCRE2_EXTENDED => 0x00000080
  | PCRE2_FIRSTLINE => 0x00000100
  | PCRE2_LITERAL => 0x02000000
  | PCRE2_MATCH_INVALID_UTF => 0x04000000
  | PCRE2_MATCH_UNSET_BACKREF => 0x00000200
  | PCRE2_MULTILINE => 0x00000400
  | PCRE2_NEVER_BACKSLASH_C => 0x00100000
  | PCRE2_NEVER_UCP => 0x00000800
  | PCRE2_NEVER_UTF => 0x00001000
  | PCRE2_NO_AUTO_CAPTURE => 0x00002000
  | PCRE2_NO_AUTO_POSSESS => 0x00004000
  | PCRE2_NO_DOTSTAR_ANCHOR => 0x00008000
  | PCRE2_NO_START_OPTIMIZE => 0x00010000
  | PCRE2_NO_UTF_CHECK => 0x40000000
  | PCRE2_UCP => 0x00020000
  | PCRE2_UNGREEDY => 0x00040000
  | PCRE2_USE_OFFSET_LIMIT => 0x00800000
  | PCRE2_UTF => 0x00080000

/-- The position of the single bit each option macro has in the header of PCRE2 10.x. -/
def pcre2_h_bit : CompileOption → Nat
  | PCRE2_ANCHORED => 31
  | PCRE2_ALLOW_EMPTY_CLASS => 0
  | PCRE2_ALT_BSUX => 1
  | PCRE2_ALT_CIRCUMFLEX => 21
  | PCRE2_ALT_VERBNAMES => 22
  | PCRE2_AUTO_CALLOUT => 2
  | PCRE2_CASELESS => 3
  | PCRE2_DOLLAR_ENDONLY => 4
  | PCRE2_DOTALL => 5
  | PCRE2_DUPNAMES => 6
  | PCRE2_ENDANCHORED => 29
  | PCRE2_EXTENDED => 7
  | PCRE2_FIRSTLINE => 8
  | PCRE2_LITERAL => 25
  | PCRE2_MATCH_INVALID_UTF => 26
  | PCRE2_MATCH_UNSET_BACKREF => 9
  | PCRE2_MULTILINE => 10
  | PCRE2_NEVER_BACKSLASH_C => 20
  | PCRE2_NEVER_UCP => 11
  | PCRE2_NEVER_UTF => 12
  | PCRE2_NO_AUTO_CAPTURE => 13
  | PCRE2_NO_AUTO_POSSESS => 14
  | PCRE2_NO_DOTSTAR_ANCHOR => 15
  | PCRE2_NO_START_OPTIMIZE => 16
  | PCRE2_NO_UTF_CHECK => 30
  | PCRE2_UCP => 17
  | PCRE2_UNGREEDY => 18
  | PCRE2_USE_OFFSET_LIMIT => 23
  | PCRE2_UTF => 19

/-! ## Strings -/

/-- What a reader of a zero-terminated buffer sees: the code units before the first NUL.
This is `Pattern.c_str()` under `PCRE2_ZERO_TERMINATED` and `(char*) buf`. -/
def c_str (s : String) : String :=
  ⟨s.data.takeWhile (fun c => c != Char.ofNat 0)⟩

/-- The comparison behind `operator<` on `std::string`: the first differing code unit decides,
and a proper prefix is smaller. -/
def string_lt : List Char → List Char → Bool
  | [], [] => false
  | [], _ :: _ => true
  | _ :: _, [] => false
  | a :: as, b :: bs =>
    if a.toNat < b.toNat then true
    else if b.toNat < a.toNat then false
    else string_lt as bs

/-- The order `std::sort` leaves a range in: no element is smaller than one before it. -/
def string_le (a b : String) : Prop := string_lt b.data a.data = false

instance string_le_decidable : DecidableRel string_le :=
  fun a b => inferInstanceAs (Decidable (string_lt b.data a.data = false))

/-- The call `std::sort(list.begin(), list.end())` on a vector of strings. -/
def std_sort (list : List String) : List String :=
  List.insertionSort string_le list

/-! ## The collaborators -/

/-- The four functions of the PCRE2 library that the wrapper calls.

* `pcre2_compile pattern options`: `none` when the call does not return; else the compiled
  pattern, or the error code and error offset written through the out parameters when the
  result is `nullptr`.
* `pcre2_get_error_message errorcode size`: the contents of the buffer after the call.
* `pcre2_match_data_create_from_pattern re`: the new block, or `none` for `nullptr`.
* `pcre2_match re subject length startoffset options match_data`: the result code and the
  contents of the match data block after the call. -/
structure Engine (Code MD : Type) where
  pcre2_compile : String → Nat → Option (Except (Int × Nat) Code)
  pcre2_get_error_message : Int → Nat → String
  pcre2_match_data_create_from_pattern : Code → Option MD
  pcre2_match : Code → String → Nat → Nat → Nat → MD → Int × MD

/-- One call to a collaborator, with its arguments. -/
inductive Call (Code MD : Type) where
  | pcre2_compile (pattern : String) (options : Nat)
  | pcre2_get_error_message (errorcode : Int) (size : Nat)
  | pcre2_match_data_create_from_pattern (re : Code)
  | pcre2_match (re : Code) (subject : String) (length startoffset options : Nat)
      (match_data : MD)
  | pcre2_match_data_free (match_data : Option MD)
  | pcre2_code_free (re : Option Code)
  | cFileList_List (root : String)

/-! ## class Pcre2Match -/

/-- The data members of `class Pcre2Match`. -/
structure Pcre2Match (Code MD : Type) where
  re : Option Code
  match_data : Option MD
  errmsg : String

/-- The outcome of a member function: the returned value, the instance afterwards and the
collaborator calls made, in order. -/
structure Ret (Code MD α : Type) where
  ret : α
  self : Pcre2Match Code MD
  calls : List (Call Code MD)

variable {Code MD : Type}

/-- The constructor `Pcre2Match::Pcre2Match(std::string Pattern)`, run on a fresh object whose
`errmsg` is the empty string.  The result is `none` when the call to `pcre2_compile` does not
return. -/
def Pcre2Match.construct (H : CompileOption → Nat) (E : Engine Code MD) (Pattern : String) :
    Option (Ret Code MD Unit) :=
  match E.pcre2_compile (c_str Pattern) (compile_options H) with
  | none => none
  | some (.error (errorcode, _)) =>
    some
      { ret := ()
        self :=
          { re := none
            match_data := none
            errmsg := c_str (E.pcre2_get_error_message errorcode 256) }
        calls :=
          [Call.pcre2_compile (c_str Pattern) (compile_options H),
           Call.pcre2_get_error_message errorcode 256] }
  | some (.ok re) =>
    some
      { ret := ()
        self :=
          { re := some re
            match_data := E.pcre2_match_data_create_from_pattern re
            errmsg := "" }
        calls :=
          [Call.pcre2_compile (c_str Pattern) (compile_options H),
           Call.pcre2_match_data_create_from_pattern re] }

/-- The destructor `Pcre2Match::~Pcre2Match()`. -/
def Pcre2Match.destroy (self : Pcre2Match Code MD) : List (Call Code MD) :=
  [Call.pcre2_match_data_free self.match_data, Call.pcre2_code_free self.re]

/-- The member `bool Pcre2Match::Matches(std::string s)`. -/
def Pcre2Match.Matches (E : Engine Code MD) (self : Pcre2Match Code MD) (s : String) :
    Ret Code MD Bool :=
  match self.re, self.match_data with
  | some re, some match_data =>
    let r := E.pcre2_match re s s.length 0 0 match_data
    if r.1 < 0 then
      { ret := false
        self :=
          { self with
            match_data := some r.2
            errmsg := c_str (E.pcre2_get_error_message r.1 256) }
        calls :=
          [Call.pcre2_match re s s.length 0 0 match_data,
           Call.pcre2_get_error_message r.1 256] }
    else
      { ret := true
        self := { self with match_data := some r.2 }
        calls := [Call.pcre2_match re s s.length 0 0 match_data] }
  | _, _ => { ret := false, self := self, calls := [] }

/-- The member `std::string Pcre2Match::ErrorMessage(void)`. -/
def Pcre2Match.ErrorMessage (self : Pcre2Match Code MD) : Ret Code MD String :=
  { ret := self.errmsg, self := self, calls := [] }

/-- A sequence of `Matches` calls on one instance, one per subject, in order: the returned
booleans, the instance after the last call, and all collaborator calls made. -/
def Pcre2Match.MatchesAll (E : Engine Code MD) :
    Pcre2Match Code MD → List String → Ret Code MD (List Bool)
  | self, [] => { ret := [], self := self, calls := [] }
  | self, s :: rest =>
    let r := Pcre2Match.Matches E self s
    let rs := Pcre2Match.MatchesAll E r.self rest
    { ret := r.ret :: rs.ret, self := rs.self, calls := r.calls ++ rs.calls }

/-! ## The program -/

/-- What a run of the program leaves behind: the text written to `std::cout`, the collaborator
calls made, and the value returned from `main`. -/
structure Run (Code MD : Type) where
  stdout : String
  calls : List (Call Code MD)
  exit_code : Int

/-- The loop `for (auto f : list) if (pm.Matches(f)) std::cout << f << std::endl;`
continued from a given instance, output text and call log. -/
def main_loop (E : Engine Code MD) :
    Pcre2Match Code MD → List String → String → List (Call Code MD) →
      Pcre2Match Code MD × String × List (Call Code MD)
  | pm, [], out, log => (pm, out, log)
  | pm, f :: rest, out, log =>
    let r := Pcre2Match.Matches E pm f
    main_loop E r.self rest (if r.ret then out ++ f ++ "\n" else out) (log ++ r.calls)

/-- The function `int main(int argc, char** argp)`, with `argc = argv.length`.  The listing
returned by `cFileList("/video").List()` is given by `cFileList_List`.  The result is `none`
where the source reads `argp[0]` although the argument vector is empty, and where the
constructor of `pm` does not return. -/
def main (H : CompileOption → Nat) (E : Engine Code MD) (cFileList_List : String → List String)
    (argv : List String) : Option (Run Code MD) :=
  if argv.length < 2 then
    match argv[0]? with
    | none => none
    | some argp0 =>
      some
        { stdout := "usage: " ++ argp0 ++ " <pcre pattern>" ++ "\n"
          calls := []
          exit_code := 0 }
  else
    match argv[1]? with
    | none => none
    | some argp1 =>
      let list := std_sort (cFileList_List "/video")
      match Pcre2Match.construct H E argp1 with
      | none => none
      | some c =>
        let r := main_loop E c.self list "" ([Call.cFileList_List "/video"] ++ c.calls)
        some { stdout := r.2.1, calls := r.2.2 ++ Pcre2Match.destroy r.1, exit_code := 0 }

/-! ## Specification vocabulary -/

/-- The text made of the given strings written one per line. -/
def lines_text : List String → String
  | [] => ""
  | l :: ls => l ++ "\n" ++ lines_text ls

/-- Whether the match operation finds this compiled pattern in this subject does not depend on
what the match data block holds: called as `Matches` calls it, its result code is negative
for all contents of the block or for none. -/
def Engine.verdict_scratch_independent (E : Engine Code MD) (re : Code) (s : String) : Prop :=
  ∀ md md' : MD,
    (E.pcre2_match re s s.length 0 0 md).1 < 0 ↔ (E.pcre2_match re s s.length 0 0 md').1 < 0

/-- The same for every compiled pattern and every subject. -/
def Engine.scratch_independent (E : Engine Code MD) : Prop :=
  ∀ (re : Code) (s : String), E.verdict_scratch_independent re s

/-! ## Sample engines

Stand-ins for the library on a handful of inputs, used to evaluate the definitions.  The
compiled pattern is the pattern text; the match data block counts the match calls made with
it.  The error codes and messages are those of PCRE2: compile error 114 for an unclosed group,
106 for an unclosed class, result code -1 for a subject without a match. -/

/-- Whether the subject ends in `.mp4`, ignoring case of the letters. -/
def ends_with_mp4 (subject : String) : Bool :=
  [Char.ofNat 46, Char.ofNat 109, Char.ofNat 112, Char.ofNat 52].isSuffixOf
    (subject.data.map Char.toLower)

/-- Whether the code units are UTF-8 in outline: every lead byte is followed by the number of
continuation bytes it announces, and no code unit stands where it cannot.  The first
argument counts the continuation bytes still due. -/
def utf8_outline : Nat → List Nat → Bool
  | 0, [] => true
  | _ + 1, [] => false
  | 0, b :: rest =>
    if b < 0x80 then utf8_outline 0 rest
    else if 0xC2 ≤ b ∧ b < 0xE0 then utf8_outline 1 rest
    else if 0xE0 ≤ b ∧ b < 0xF0 then utf8_outline 2 rest
    else if 0xF0 ≤ b ∧ b < 0xF5 then utf8_outline 3 rest
    else false
  | n + 1, b :: rest => if 0x80 ≤ b ∧ b < 0xC0 then utf8_outline n rest else false

/-- The result code of PCRE2 for a subject in which the pattern is not found,
`PCRE2_ERROR_NOMATCH` in `pcre2.h`. -/
def PCRE2_ERROR_NOMATCH : Int := -1

/-- A sample engine.  Its compile operation does not return on a pattern that is not UTF-8 even
in outline, rejects the patterns `(` and `[` and accepts every other pattern.  Its match
operation finds the pattern `.*\.mp4$` in the subjects that end in `.mp4`; any other pattern
is found in no subject. -/
def sample_engine : Engine String Nat where
  pcre2_compile := fun pattern _ =>
    if utf8_outline 0 (pattern.data.map Char.toNat) = false then none
    else if pattern = "(" then some (.error (114, 1))
    else if pattern = "[" then some (.error (106, 1))
    else some (.ok pattern)
  pcre2_get_error_message := fun errorcode _ =>
    if errorcode = 114 then "missing closing parenthesis"
    else if errorcode = 106 then "missing terminating ] for character class"
    else if errorcode = -1 then "no match"
    else "unknown"
  pcre2_match_data_create_from_pattern := fun _ => some 0
  pcre2_match := fun re subject _ _ _ md =>
    if re = ".*\\.mp4$" ∧ ends_with_mp4 subject = true then (1, md + 1) else (-1, md + 1)

/-- The sample engine when no memory is left for a match data block. -/
def sample_engine_no_memory : Engine String Nat :=
  { sample_engine with pcre2_match_data_create_from_pattern := fun _ => none }

/-- The ready instance the constructor builds from the pattern `.*\.mp4$` with the sample
engine. -/
def sample_ready : Pcre2Match String Nat :=
  { re := some ".*\\.mp4$", match_data := some 0, errmsg := "" }

/-- The unready instance the constructor builds from the pattern `(` with the sample engine. -/
def sample_unready : Pcre2Match String Nat :=
  { re := none, match_data := none, errmsg := "missing closing parenthesis" }

/-! ## The order used by `std::sort` -/

theorem string_lt_irrefl (a : List Char) : string_lt a a = false := by
  induction a with
  | nil => rfl
  | cons x xs ih => simp [string_lt, ih]

theorem string_lt_asymm (a b : List Char) (h : string_lt a b = true) : string_lt b a = false := by
  induction a generalizing b with
  | nil => cases b <;> simp [string_lt] at h ⊢
  | cons x xs ih =>
    cases b with
    | nil => simp [string_lt] at h
    | cons y ys =>
      simp only [string_lt] at h ⊢
      split_ifs at h ⊢ with h1 h2 h3
      all_goals first | omega | rfl | exact ih ys h

theorem string_lt_neg_trans (a b c : List Char) (hab : string_lt b a = false)
    (hbc : string_lt c b = false) : string_lt c a = false := by
  induction a generalizing b c with
  | nil => cases c <;> rfl
  | cons x xs ih =>
    cases b with
    | nil => simp [string_lt] at hab
    | cons y ys =>
      cases c with
      | nil => simp [string_lt] at hbc
      | cons z zs =>
        simp only [string_lt] at hab hbc ⊢
        split_ifs at hab hbc ⊢ with h1 h2 h3 h4 h5 h6
        all_goals first | omega | rfl | exact ih ys zs hab hbc

theorem string_lt_connected (a b : List Char) (hab : string_lt a b = false)
    (hba : string_lt b a = false) : a = b := by
  induction a generalizing b with
  | nil =>
    cases b with
    | nil => rfl
    | cons y ys => simp [string_lt] at hab
  | cons x xs ih =>
    cases b with
    | nil => simp [string_lt] at hba
    | cons y ys =>
      simp only [string_lt] at hab hba
      split_ifs at hab hba with h1 h2
      have hxy : x = y := by
        apply Char.ext
        apply UInt32.ext
        have e1 : x.toNat = y.toNat := by omega
        exact e1
      rw [hxy, ih ys hab hba]

instance string_le_total : IsTotal String string_le :=
  ⟨fun a b => by
    unfold string_le
    cases h : string_lt b.data a.data with
    | false => exact Or.inl rfl
    | true => exact Or.inr (string_lt_asymm _ _ h)⟩

instance string_le_trans : IsTrans String string_le :=
  ⟨fun a b c hab hbc => string_lt_neg_trans a.data b.data c.data hab hbc⟩

instance string_le_antisymm : IsAntisymm String string_le :=
  ⟨fun a b hab hba => by
    have h := string_lt_connected a.data b.data hba hab
    cases a; cases b; simp_all⟩

theorem std_sort_perm (list : List String) : (std_sort list).Perm list :=
  List.perm_insertionSort string_le list

theorem std_sort_sorted (list : List String) : List.Sorted string_le (std_sort list) :=
  List.sorted_insertionSort string_le list

/-- The sorted arrangement of a vector of strings is unique, so the outcome of `std::sort`
does not depend on the sorting algorithm. -/
theorem std_sort_unique (list sorted : List String) (hp : sorted.Perm list)
    (hs : List.Sorted string_le sorted) : sorted = std_sort list :=
  List.eq_of_perm_of_sorted (hp.trans (std_sort_perm list).symm) hs (std_sort_sorted list)

/-! ## Single calls of `Matches` -/

theorem Matches_ready (E : Engine Code MD) (self : Pcre2Match Code MD) (re : Code) (md : MD)
    (s : String) (hre : self.re = some re) (hmd : self.match_data = some md) :
    Pcre2Match.Matches E self s =
      if (E.pcre2_match re s s.length 0 0 md).1 < 0 then
        { ret := false
          self :=
            { self with
              match_data := some (E.pcre2_match re s s.length 0 0 md).2
              errmsg :=
                c_str (E.pcre2_get_error_message (E.pcre2_match re s s.length 0 0 md).1 256) }
          calls :=
            [Call.pcre2_match re s s.length 0 0 md,
             Call.pcre2_get_error_message (E.pcre2_match re s s.length 0 0 md).1 256] }
      else
        { ret := true
          self := { self with match_data := some (E.pcre2_match re s s.length 0 0 md).2 }
          calls := [Call.pcre2_match re s s.length 0 0 md] } := by
  simp only [Pcre2Match.Matches, hre, hmd]

theorem Matches_unready (E : Engine Code MD) (self : Pcre2Match Code MD) (s : String)
    (hun : self.re = none ∨ self.match_data = none) :
    Pcre2Match.Matches E self s = { ret := false, self := self, calls := [] } := by
  unfold Pcre2Match.Matches
  rcases hun with h | h
  · simp only [h]
  · cases hre : self.re <;> simp only [h]

/-- Every instance is unready or ready. -/
theorem ready_or_unready (self : Pcre2Match Code MD) :
    (self.re = none ∨ self.match_data = none) ∨
      ∃ re md, self.re = some re ∧ self.match_data = some md := by
  cases hre : self.re with
  | none => exact Or.inl (Or.inl rfl)
  | some re =>
    cases hmd : self.match_data with
    | none => exact Or.inl (Or.inr rfl)
    | some md => exact Or.inr ⟨re, md, rfl, rfl⟩

theorem Matches_re (E : Engine Code MD) (self : Pcre2Match Code MD) (s : String) :
    (Pcre2Match.Matches E self s).self.re = self.re := by
  rcases ready_or_unready self with hun | ⟨re, md, hre, hmd⟩
  · rw [Matches_unready E self s hun]
  · rw [Matches_ready E self re md s hre hmd]
    split <;> rfl

theorem Matches_match_data_isSome (E : Engine Code MD) (self : Pcre2Match Code MD)
    (s : String) :
    (Pcre2Match.Matches E self s).self.match_data.isSome = self.match_data.isSome := by
  rcases ready_or_unready self with hun | ⟨re, md, hre, hmd⟩
  · rw [Matches_unready E self s hun]
  · rw [Matches_ready E self re md s hre hmd]
    split <;> simp [hmd]

theorem Matches_ret_true_errmsg (E : Engine Code MD) (self : Pcre2Match Code MD) (s : String)
    (h : (Pcre2Match.Matches E self s).ret = true) :
    (Pcre2Match.Matches E self s).self.errmsg = self.errmsg := by
  rcases ready_or_unready self with hun | ⟨re, md, hre, hmd⟩
  · rw [Matches_unready E self s hun]
  · rw [Matches_ready E self re md s hre hmd] at h ⊢
    by_cases hrc : (E.pcre2_match re s s.length 0 0 md).1 < 0
    · simp [hrc] at h
    · simp [hrc]

/-- When the verdict of the engine for the subject does not depend on the match data block,
the boolean returned by `Matches` is the same on two instances that hold the same compiled
pattern and agree on whether a match data block is present. -/
theorem Matches_ret_congr (E : Engine Code MD) (a b : Pcre2Match Code MD) (s : String)
    (hre : a.re = b.re) (hmd : a.match_data.isSome = b.match_data.isSome)
    (hs : ∀ re, a.re = some re → E.verdict_scratch_independent re s) :
    (Pcre2Match.Matches E a s).ret = (Pcre2Match.Matches E b s).ret := by
  cases ha : a.re with
  | none =>
    rw [Matches_unready E a s (Or.inl ha), Matches_unready E b s (Or.inl (hre ▸ ha))]
  | some re =>
    have hb : b.re = some re := hre ▸ ha
    cases hma : a.match_data with
    | none =>
      have hmb : b.match_data = none := by
        rw [hma] at hmd
        cases hb2 : b.match_data <;> simp_all
      rw [Matches_unready E a s (Or.inr hma), Matches_unready E b s (Or.inr hmb)]
    | some ma =>
      cases hmb : b.match_data with
      | none => rw [hma, hmb] at hmd; simp at hmd
      | some mb =>
        rw [Matches_ready E a re ma s ha hma, Matches_ready E b re mb s hb hmb]
        by_cases hrc : (E.pcre2_match re s s.length 0 0 ma).1 < 0
        · rw [if_pos hrc, if_pos ((hs re ha ma mb).mp hrc)]
        · rw [if_neg hrc, if_neg (fun h => hrc ((hs re ha ma mb).mpr h))]

/-! ## Sequences of `Matches` calls -/

theorem MatchesAll_re (E : Engine Code MD) (self : Pcre2Match Code MD)
    (subjects : List String) : (Pcre2Match.MatchesAll E self subjects).self.re = self.re := by
  induction subjects generalizing self with
  | nil => rfl
  | cons s rest ih =>
    simp only [Pcre2Match.MatchesAll]
    rw [ih, Matches_re]

theorem MatchesAll_match_data_isSome (E : Engine Code MD) (self : Pcre2Match Code MD)
    (subjects : List String) :
    (Pcre2Match.MatchesAll E self subjects).self.match_data.isSome =
      self.match_data.isSome := by
  induction subjects generalizing self with
  | nil => rfl
  | cons s rest ih =>
    simp only [Pcre2Match.MatchesAll]
    rw [ih, Matches_match_data_isSome]

theorem MatchesAll_unready (E : Engine Code MD) (self : Pcre2Match Code MD)
    (subjects : List String) (hun : self.re = none ∨ self.match_data = none) :
    Pcre2Match.MatchesAll E self subjects =
      { ret := List.replicate subjects.length false, self := self, calls := [] } := by
  induction subjects with
  | nil => rfl
  | cons s rest ih =>
    simp only [Pcre2Match.MatchesAll, Matches_unready E self s hun, ih]
    rfl

theorem MatchesAll_all_true_errmsg (E : Engine Code MD) (self : Pcre2Match Code MD)
    (subjects : List String)
    (h : ∀ b ∈ (Pcre2Match.MatchesAll E self subjects).ret, b = true) :
    (Pcre2Match.MatchesAll E self subjects).self.errmsg = self.errmsg := by
  induction subjects generalizing self with
  | nil => rfl
  | cons s rest ih =>
    simp only [Pcre2Match.MatchesAll, List.mem_cons, forall_eq_or_imp] at h ⊢
    rw [ih _ h.2, Matches_ret_true_errmsg E self s h.1]

/-- With an engine whose verdicts do not depend on the match data block, the booleans returned
by a sequence of `Matches` calls are those each subject gets from the instance the sequence
started on. -/
theorem MatchesAll_ret_eq_map (E : Engine Code MD) (hE : E.scratch_independent)
    (self : Pcre2Match Code MD) (subjects : List String) :
    (Pcre2Match.MatchesAll E self subjects).ret =
      subjects.map (fun f => (Pcre2Match.Matches E self f).ret) := by
  induction subjects generalizing self with
  | nil => rfl
  | cons s rest ih =>
    simp only [Pcre2Match.MatchesAll, List.map_cons]
    rw [ih]
    congr 1
    apply List.map_congr_left
    intro f _
    exact Matches_ret_congr E _ _ f (Matches_re E self s)
      (Matches_match_data_isSome E self s) (fun re _ => hE re f)

/-! ## The loop of `main` -/

theorem zip_filter_map_eq_filter (p : String → Bool) (list : List String) :
    ((list.zip (list.map p)).filter (fun x => x.2)).map (fun x => x.1) = list.filter p := by
  induction list with
  | nil => rfl
  | cons f rest ih =>
    simp only [List.map_cons, List.zip_cons_cons, List.filter_cons]
    cases hp : p f <;> simp [ih]

theorem main_loop_eq (E : Engine Code MD) (pm : Pcre2Match Code MD) (list : List String)
    (out : String) (log : List (Call Code MD)) :
    main_loop E pm list out log =
      ((Pcre2Match.MatchesAll E pm list).self,
       out ++ lines_text
         (((list.zip (Pcre2Match.MatchesAll E pm list).ret).filter (fun x => x.2)).map
           (fun x => x.1)),
       log ++ (Pcre2Match.MatchesAll E pm list).calls) := by
  induction list generalizing pm out log with
  | nil => simp [main_loop, Pcre2Match.MatchesAll, lines_text]
  | cons f rest ih =>
    simp only [main_loop, Pcre2Match.MatchesAll, List.zip_cons_cons, List.filter_cons]
    rw [ih]
    cases hr : (Pcre2Match.Matches E pm f).ret
    · simp [List.append_assoc]
    · simp [lines_text, List.append_assoc, String.append_assoc]

/-! ## The outcomes of the constructor -/

theorem construct_of_ok (H : CompileOption → Nat) (E : Engine Code MD) (Pattern : String)
    (re : Code) (hok : E.pcre2_compile (c_str Pattern) (compile_options H) = some (.ok re)) :
    Pcre2Match.construct H E Pattern =
      some
        { ret := ()
          self :=
            { re := some re
              match_data := E.pcre2_match_data_create_from_pattern re
              errmsg := "" }
          calls :=
            [Call.pcre2_compile (c_str Pattern) (compile_options H),
             Call.pcre2_match_data_create_from_pattern re] } := by
  simp only [Pcre2Match.construct, hok]

theorem construct_of_error (H : CompileOption → Nat) (E : Engine Code MD) (Pattern : String)
    (errorcode : Int) (erroroffset : Nat)
    (hrej : E.pcre2_compile (c_str Pattern) (compile_options H) =
      some (.error (errorcode, erroroffset))) :
    Pcre2Match.construct H E Pattern =
      some
        { ret := ()
          self :=
            { re := none
              match_data := none
              errmsg := c_str (E.pcre2_get_error_message errorcode 256) }
          calls :=
            [Call.pcre2_compile (c_str Pattern) (compile_options H),
             Call.pcre2_get_error_message errorcode 256] } := by
  simp only [Pcre2Match.construct, hrej]

theorem construct_of_none (H : CompileOption → Nat) (E : Engine Code MD) (Pattern : String)
    (hnone : E.pcre2_compile (c_str Pattern) (compile_options H) = none) :
    Pcre2Match.construct H E Pattern = none := by
  simp only [Pcre2Match.construct, hnone]

/-- The constructor returns exactly when its call to `pcre2_compile` does. -/
theorem construct_eq_none_iff (H : CompileOption → Nat) (E : Engine Code MD)
    (Pattern : String) :
    Pcre2Match.construct H E Pattern = none ↔
      E.pcre2_compile (c_str Pattern) (compile_options H) = none := by
  cases hc : E.pcre2_compile (c_str Pattern) (compile_options H) with
  | none => simp [construct_of_none H E Pattern hc]
  | some reply =>
    cases reply with
    | error e =>
      obtain ⟨errorcode, erroroffset⟩ := e
      simp [construct_of_error H E Pattern errorcode erroroffset hc]
    | ok re => simp [construct_of_ok H E Pattern re hc]

/-- The two sample instances are what the constructor builds with the sample engine. -/
theorem construct_sample_instances :
    (Pcre2Match.construct pcre2_h sample_engine ".*\\.mp4$").map
      (fun r => (r.self.re, r.self.match_data, r.self.errmsg)) =
      some (sample_ready.re, sample_ready.match_data, sample_ready.errmsg) ∧
    (Pcre2Match.construct pcre2_h sample_engine "(").map
      (fun r => (r.self.re, r.self.match_data, r.self.errmsg)) =
      some (sample_unready.re, sample_unready.match_data, sample_unready.errmsg) := by
  decide

/-! ## The claims about `Pcre2Match` -/

/-- C1. On a ready instance (compiled pattern `re` and match data block `md` both present)
`Matches s` calls the match operation of the engine exactly once, on `re` with the whole
subject `s`, length `s.length`, start offset 0 and options 0; it returns `true` exactly when
the result code of that call is non-negative, and `false` for every negative result code. -/
theorem Matches_true_iff_result_code_nonneg (E : Engine Code MD) (self : Pcre2Match Code MD)
    (re : Code) (md : MD) (s : String) (hre : self.re = some re)
    (hmd : self.match_data = some md) :
    ((Pcre2Match.Matches E self s).calls = [Call.pcre2_match re s s.length 0 0 md] ∨
      (Pcre2Match.Matches E self s).calls =
        [Call.pcre2_match re s s.length 0 0 md,
         Call.pcre2_get_error_message (E.pcre2_match re s s.length 0 0 md).1 256]) ∧
    ((Pcre2Match.Matches E self s).ret = true ↔ 0 ≤ (E.pcre2_match re s s.length 0 0 md).1) ∧
    ((E.pcre2_match re s s.length 0 0 md).1 < 0 → (Pcre2Match.Matches E self s).ret = false) := by
  rw [Matches_ready E self re md s hre hmd]
  by_cases hrc : (E.pcre2_match re s s.length 0 0 md).1 < 0
  · rw [if_pos hrc]
    refine ⟨Or.inr rfl, ?_, fun _ => rfl⟩
    constructor
    · intro h; cases h
    · intro h; omega
  · rw [if_neg hrc]
    refine ⟨Or.inl rfl, ?_, fun h => absurd h hrc⟩
    constructor
    · intro _; omega
    · intro _; rfl

theorem Matches_true_iff_result_code_nonneg_witness :
    (sample_ready.re = some ".*\\.mp4$" ∧ sample_ready.match_data = some 0) ∧
    ((Pcre2Match.Matches sample_engine sample_ready "a.mp4").ret = true ↔
      0 ≤ (sample_engine.pcre2_match ".*\\.mp4$" "a.mp4" "a.mp4".length 0 0 0).1) ∧
    (Pcre2Match.Matches sample_engine sample_ready "a.mp4").ret = true :=
  ⟨⟨by decide, by decide⟩,
    (Matches_true_iff_result_code_nonneg sample_engine sample_ready ".*\\.mp4$" 0 "a.mp4"
      (by decide) (by decide)).2.1,
    by decide⟩

/-- C3. On an instance whose compiled pattern or match data block is absent, `Matches` returns
`false` for every subject, makes no call to the engine and leaves the instance (compiled
pattern, match data, diagnostic message) as it was; the same holds for any sequence of
`Matches` calls, so the instance stays unready and keeps its diagnostic. -/
theorem Matches_unready_inert (E : Engine Code MD) (self : Pcre2Match Code MD)
    (hun : self.re = none ∨ self.match_data = none) (s : String) (subjects : List String) :
    (Pcre2Match.Matches E self s).ret = false ∧
    (Pcre2Match.Matches E self s).calls = [] ∧
    (Pcre2Match.Matches E self s).self = self ∧
    (∀ b ∈ (Pcre2Match.MatchesAll E self subjects).ret, b = false) ∧
    (Pcre2Match.MatchesAll E self subjects).ret.length = subjects.length ∧
    (Pcre2Match.MatchesAll E self subjects).calls = [] ∧
    (Pcre2Match.MatchesAll E self subjects).self = self := by
  rw [Matches_unready E self s hun, MatchesAll_unready E self subjects hun]
  refine ⟨rfl, rfl, rfl, ?_, ?_, rfl, rfl⟩
  · intro b hb
    exact (List.mem_replicate.mp hb).2
  · simp

theorem Matches_unready_inert_witness :
    (sample_unready.re = none ∨ sample_unready.match_data = none) ∧
    (Pcre2Match.MatchesAll sample_engine sample_unready ["a.mp4", "(", ""]).self =
      sample_unready :=
  ⟨Or.inl (by decide),
    (Matches_unready_inert sample_engine sample_unready (Or.inl (by decide)) "a.mp4"
      ["a.mp4", "(", ""]).2.2.2.2.2.2⟩

/-- C4. On a ready instance, when the match operation of the engine returns a negative result
code `rc` for the subject, `Matches` returns `false` and replaces the diagnostic message by the
text the engine wrote for `rc`, which is what `ErrorMessage` returns right afterwards;
`ErrorMessage` calls no collaborator and leaves every instance as it was, so reading twice
gives the same text. -/
theorem Matches_negative_result_code_sets_errmsg (E : Engine Code MD)
    (self : Pcre2Match Code MD) (re : Code) (md : MD) (s : String) (hre : self.re = some re)
    (hmd : self.match_data = some md) (hrc : (E.pcre2_match re s s.length 0 0 md).1 < 0) :
    (Pcre2Match.Matches E self s).ret = false ∧
    (Pcre2Match.Matches E self s).self.errmsg =
      c_str (E.pcre2_get_error_message (E.pcre2_match re s s.length 0 0 md).1 256) ∧
    (Pcre2Match.ErrorMessage (Pcre2Match.Matches E self s).self).ret =
      c_str (E.pcre2_get_error_message (E.pcre2_match re s s.length 0 0 md).1 256) ∧
    (∀ pm : Pcre2Match Code MD,
      (Pcre2Match.ErrorMessage pm).self = pm ∧ (Pcre2Match.ErrorMessage pm).calls = [] ∧
      (Pcre2Match.ErrorMessage (Pcre2Match.ErrorMessage pm).self).ret =
        (Pcre2Match.ErrorMessage pm).ret) := by
  rw [Matches_ready E self re md s hre hmd, if_pos hrc]
  exact ⟨rfl, rfl, rfl, fun pm => ⟨rfl, rfl, rfl⟩⟩

theorem Matches_negative_result_code_sets_errmsg_witness :
    (sample_ready.re = some ".*\\.mp4$" ∧ sample_ready.match_data = some 0 ∧
      (sample_engine.pcre2_match ".*\\.mp4$" "c.txt" "c.txt".length 0 0 0).1 < 0) ∧
    (Pcre2Match.ErrorMessage (Pcre2Match.Matches sample_engine sample_ready "c.txt").self).ret =
      c_str (sample_engine.pcre2_get_error_message
        (sample_engine.pcre2_match ".*\\.mp4$" "c.txt" "c.txt".length 0 0 0).1 256) :=
  ⟨⟨by decide, by decide, by decide⟩,
    (Matches_negative_result_code_sets_errmsg sample_engine sample_ready ".*\\.mp4$" 0 "c.txt"
      (by decide) (by decide) (by decide)).2.2.1⟩

/-- C5, at a concrete input: with the sample engine and the pattern `.*\.mp4$` the instance is
ready and its diagnostic message is empty; for the subject `c.txt` the engine returns
`PCRE2_ERROR_NOMATCH`, the pattern is simply not found, and the `Matches` call changes the
diagnostic message from the empty string to `no match`. -/
theorem Matches_no_match_changes_errmsg :
    (Pcre2Match.construct pcre2_h sample_engine ".*\\.mp4$").map
      (fun r => (r.self.re, r.self.match_data, r.self.errmsg)) =
      some (sample_ready.re, sample_ready.match_data, sample_ready.errmsg) ∧
    sample_ready.re = some ".*\\.mp4$" ∧ sample_ready.match_data = some 0 ∧
    (Pcre2Match.ErrorMessage sample_ready).ret = "" ∧
    (sample_engine.pcre2_match ".*\\.mp4$" "c.txt" "c.txt".length 0 0 0).1 =
      PCRE2_ERROR_NOMATCH ∧
    (Pcre2Match.ErrorMessage (Pcre2Match.Matches sample_engine sample_ready "c.txt").self).ret =
      "no match" := by
  decide

/-- C5, amended. After construction with a pattern that compiles, `ErrorMessage` returns the
empty string, and it still does after any sequence of `Matches` calls that all return `true`,
and after any sequence at all when no match data block was obtained.  On a ready instance a
`Matches` call keeps the diagnostic message when the result code of the engine is
non-negative and replaces it by the text the engine wrote for the result code when that code
is negative, whichever negative code it is. -/
theorem errmsg_empty_until_negative_result_code (H : CompileOption → Nat)
    (E : Engine Code MD) (Pattern : String) (re : Code)
    (hok : E.pcre2_compile (c_str Pattern) (compile_options H) = some (.ok re))
    (subjects : List String) :
    ∃ r : Ret Code MD Unit, Pcre2Match.construct H E Pattern = some r ∧
      (Pcre2Match.ErrorMessage r.self).ret = "" ∧
      ((∀ b ∈ (Pcre2Match.MatchesAll E r.self subjects).ret, b = true) →
        (Pcre2Match.ErrorMessage (Pcre2Match.MatchesAll E r.self subjects).self).ret = "") ∧
      (r.self.match_data = none →
        (Pcre2Match.ErrorMessage (Pcre2Match.MatchesAll E r.self subjects).self).ret = "") ∧
      (∀ (pm : Pcre2Match Code MD) (re' : Code) (md : MD) (s : String),
        pm.re = some re' → pm.match_data = some md →
        (0 ≤ (E.pcre2_match re' s s.length 0 0 md).1 →
          (Pcre2Match.Matches E pm s).self.errmsg = pm.errmsg) ∧
        ((E.pcre2_match re' s s.length 0 0 md).1 < 0 →
          (Pcre2Match.Matches E pm s).self.errmsg =
            c_str
              (E.pcre2_get_error_message (E.pcre2_match re' s s.length 0 0 md).1 256))) := by
  refine ⟨_, construct_of_ok H E Pattern re hok, rfl, fun hall => ?_, fun hnone => ?_, ?_⟩
  · exact MatchesAll_all_true_errmsg E _ subjects hall
  · rw [MatchesAll_unready E _ subjects (Or.inr hnone)]
    rfl
  · intro pm re' md s hre hmd
    rw [Matches_ready E pm re' md s hre hmd]
    constructor
    · intro h
      rw [if_neg (by omega)]
    · intro h
      rw [if_pos h]

theorem errmsg_empty_until_negative_result_code_witness :
    sample_engine.pcre2_compile (c_str ".*\\.mp4$") (compile_options pcre2_h) =
      some (.ok ".*\\.mp4$") ∧
    ∃ r : Ret String Nat Unit,
      Pcre2Match.construct pcre2_h sample_engine ".*\\.mp4$" = some r ∧
      (Pcre2Match.ErrorMessage r.self).ret = "" ∧
      (Pcre2Match.ErrorMessage
        (Pcre2Match.MatchesAll sample_engine r.self ["a.mp4", "B.MP4"]).self).ret = "" :=
  ⟨rfl,
    match errmsg_empty_until_negative_result_code pcre2_h sample_engine ".*\\.mp4$"
      ".*\\.mp4$" rfl ["a.mp4", "B.MP4"] with
    | ⟨r, hr, hempty, hall, _, _⟩ =>
      ⟨r, hr, hempty, hall (by
        have hself : r.self = sample_ready := by
          have h := hr
          rw [construct_of_ok pcre2_h sample_engine ".*\\.mp4$" ".*\\.mp4$" rfl] at h
          cases h
          rfl
        rw [hself]
        decide)⟩⟩

/-- C6, at a concrete input: with the sample engine that has no memory left for a match data
block, constructing from the pattern `a` leaves the compiled pattern present and the match
data block absent. -/
theorem construct_no_memory_re_without_match_data :
    sample_engine_no_memory.pcre2_match_data_create_from_pattern "a" = none ∧
    (Pcre2Match.construct pcre2_h sample_engine_no_memory "a").map
      (fun r => (r.self.re, r.self.match_data)) = some (some "a", none) := by
  decide

/-- C6, amended. After construction a match data block is present only if a compiled pattern
is: a rejected pattern leaves both absent; an accepted pattern leaves the compiled pattern
present, and the match data member is whatever the allocation of the engine returned, a block
or nothing.  No sequence of `Matches` calls changes the compiled pattern or whether a match
data block is present. -/
theorem match_data_present_only_with_re (H : CompileOption → Nat) (E : Engine Code MD)
    (Pattern : String) (subjects : List String) :
    (∀ r : Ret Code MD Unit, Pcre2Match.construct H E Pattern = some r →
      r.self.re = none → r.self.match_data = none) ∧
    (∀ (errorcode : Int) (erroroffset : Nat),
      E.pcre2_compile (c_str Pattern) (compile_options H) =
        some (.error (errorcode, erroroffset)) →
      ∃ r : Ret Code MD Unit, Pcre2Match.construct H E Pattern = some r ∧
        r.self.re = none ∧ r.self.match_data = none) ∧
    (∀ re : Code, E.pcre2_compile (c_str Pattern) (compile_options H) = some (.ok re) →
      ∃ r : Ret Code MD Unit, Pcre2Match.construct H E Pattern = some r ∧
        r.self.re = some re ∧
        r.self.match_data = E.pcre2_match_data_create_from_pattern re) ∧
    (∀ pm : Pcre2Match Code MD,
      (Pcre2Match.MatchesAll E pm subjects).self.re = pm.re ∧
      (Pcre2Match.MatchesAll E pm subjects).self.match_data.isSome =
        pm.match_data.isSome) := by
  refine ⟨?_, ?_, ?_, fun pm => ⟨MatchesAll_re E pm subjects,
    MatchesAll_match_data_isSome E pm subjects⟩⟩
  · intro r hr h
    cases hc : E.pcre2_compile (c_str Pattern) (compile_options H) with
    | none =>
      rw [construct_of_none H E Pattern hc] at hr
      cases hr
    | some reply =>
      cases reply with
      | error e =>
        obtain ⟨errorcode, erroroffset⟩ := e
        rw [construct_of_error H E Pattern errorcode erroroffset hc] at hr
        cases hr
        rfl
      | ok re =>
        rw [construct_of_ok H E Pattern re hc] at hr
        cases hr
        cases h
  · intro errorcode erroroffset hc
    exact ⟨_, construct_of_error H E Pattern errorcode erroroffset hc, rfl, rfl⟩
  · intro re hc
    exact ⟨_, construct_of_ok H E Pattern re hc, rfl, rfl⟩

/-- C8, at a concrete input: the pattern argument made of the code units `a` and 0xFF is not
UTF-8; on it the compile operation of the sample engine, like that of PCRE2 under the options
the constructor passes, does not return, and neither does `main`: nothing is returned, no
exit code 0. -/
theorem main_invalid_utf8_pattern_does_not_return :
    "a\xff".data.map Char.toNat = [97, 255] ∧
    sample_engine.pcre2_compile (c_str "a\xff") (compile_options pcre2_h) = none ∧
    Pcre2Match.construct pcre2_h sample_engine "a\xff" = none ∧
    main pcre2_h sample_engine (fun _ => ["b.mp4", "a.mp4", "c.txt"]) ["pcre2-test", "a\xff"] =
      none :=
  ⟨by decide, rfl, rfl, rfl⟩

/-- C8, amended. Run with a pattern argument on which the compile operation of the engine
returns, accepting or rejecting the pattern, `main` returns 0 and requests the listing of
`/video` once, builds one matcher from the pattern, calls `Matches` on it for each entry of
the sorted listing in order, and destroys it.  The sorted listing is a rearrangement of the
listing in the order of `operator<`.  The text written is the entries for which that `Matches`
call returned `true`, one per line, in sorted order; when the verdicts of the engine do not
depend on the match data block these are the sorted entries on which the freshly built
matcher returns `true`.  An empty listing gives no output. -/
theorem main_prints_sorted_matching_entries (H : CompileOption → Nat) (E : Engine Code MD)
    (cFileList_List : String → List String) (argp0 pattern : String) (more : List String)
    (reply : Except (Int × Nat) Code)
    (hret : E.pcre2_compile (c_str pattern) (compile_options H) = some reply) :
    ∃ (run : Run Code MD) (pm : Ret Code MD Unit),
      Pcre2Match.construct H E pattern = some pm ∧
      main H E cFileList_List (argp0 :: pattern :: more) = some run ∧
      run.exit_code = 0 ∧
      (std_sort (cFileList_List "/video")).Perm (cFileList_List "/video") ∧
      List.Sorted string_le (std_sort (cFileList_List "/video")) ∧
      run.calls =
        [Call.cFileList_List "/video"] ++ pm.calls ++
          (Pcre2Match.MatchesAll E pm.self (std_sort (cFileList_List "/video"))).calls ++
          Pcre2Match.destroy
            (Pcre2Match.MatchesAll E pm.self (std_sort (cFileList_List "/video"))).self ∧
      run.stdout =
        lines_text
          ((((std_sort (cFileList_List "/video")).zip
            (Pcre2Match.MatchesAll E pm.self (std_sort (cFileList_List "/video"))).ret).filter
            (fun x => x.2)).map (fun x => x.1)) ∧
      (E.scratch_independent →
        run.stdout =
          lines_text
            ((std_sort (cFileList_List "/video")).filter
              (fun f => (Pcre2Match.Matches E pm.self f).ret))) ∧
      (cFileList_List "/video" = [] → run.stdout = "") := by
  have hsome : ∃ pm, Pcre2Match.construct H E pattern = some pm := by
    cases hc : Pcre2Match.construct H E pattern with
    | none =>
      rw [(construct_eq_none_iff H E pattern).mp hc] at hret
      cases hret
    | some pm => exact ⟨pm, rfl⟩
  obtain ⟨pm, hpm⟩ := hsome
  have h1 : (argp0 :: pattern :: more)[1]? = some pattern := by simp
  have hmain : main H E cFileList_List (argp0 :: pattern :: more) =
      some
        { stdout :=
            "" ++ lines_text
              ((((std_sort (cFileList_List "/video")).zip
                (Pcre2Match.MatchesAll E pm.self (std_sort (cFileList_List "/video"))).ret).filter
                (fun x => x.2)).map (fun x => x.1))
          calls :=
            [Call.cFileList_List "/video"] ++ pm.calls ++
              (Pcre2Match.MatchesAll E pm.self (std_sort (cFileList_List "/video"))).calls ++
              Pcre2Match.destroy
                (Pcre2Match.MatchesAll E pm.self (std_sort (cFileList_List "/video"))).self
          exit_code := 0 } := by
    simp only [main, List.length_cons]
    rw [if_neg (by omega)]
    simp only [h1, hpm, main_loop_eq]
  refine ⟨_, pm, hpm, hmain, rfl, std_sort_perm _, std_sort_sorted _, rfl, ?_, fun hE => ?_,
    fun hnil => ?_⟩
  · exact String.empty_append _
  · show "" ++ lines_text _ = _
    rw [String.empty_append, MatchesAll_ret_eq_map E hE, zip_filter_map_eq_filter]
  · show "" ++ lines_text _ = _
    rw [hnil]
    rfl

theorem main_prints_sorted_matching_entries_witness :
    sample_engine.pcre2_compile (c_str ".*\\.mp4$") (compile_options pcre2_h) =
      some (.ok ".*\\.mp4$") ∧
    ∃ run : Run String Nat,
      main pcre2_h sample_engine (fun _ => ["b.mp4", "a.mp4", "c.txt"])
        ["pcre2-test", ".*\\.mp4$"] = some run ∧
      run.exit_code = 0 ∧
      (sample_engine.scratch_independent →
        run.stdout =
          lines_text
            ((std_sort ["b.mp4", "a.mp4", "c.txt"]).filter
              (fun f => (Pcre2Match.Matches sample_engine sample_ready f).ret))) :=
  ⟨rfl,
    match main_prints_sorted_matching_entries pcre2_h sample_engine
      (fun _ => ["b.mp4", "a.mp4", "c.txt"]) "pcre2-test" ".*\\.mp4$" [] (.ok ".*\\.mp4$")
      rfl with
    | ⟨run, pm, hpm, hmain, hexit, _, _, _, _, hfilter, _⟩ =>
      have hself : pm.self = sample_ready := by
        have h := hpm
        rw [construct_of_ok pcre2_h sample_engine ".*\\.mp4$" ".*\\.mp4$" rfl] at h
        cases h
        rfl
      ⟨run, hmain, hexit, hself ▸ hfilter⟩⟩

/-- The first end-to-end scenario, with the sample engine: the listing `b.mp4`, `a.mp4`,
`c.txt` and the pattern `.*\.mp4$` give the output `a.mp4` then `b.mp4`. -/
theorem main_scenario_mp4 :
    (main pcre2_h sample_engine (fun _ => ["b.mp4", "a.mp4", "c.txt"])
        ["pcre2-test", ".*\\.mp4$"]).map (fun run => (run.stdout, run.exit_code)) =
      some ("a.mp4\nb.mp4\n", 0) := by
  decide

/-- The fourth end-to-end scenario, with the sample engine: the pattern `[` is rejected and
nothing is printed. -/
theorem main_scenario_invalid_pattern :
    (main pcre2_h sample_engine (fun _ => ["b.mp4", "a.mp4", "c.txt"]) ["pcre2-test", "["]).map
        (fun run => (run.stdout, run.exit_code)) =
      some ("", 0) := by
  decide

/-- C9. Run with fewer than two arguments, the first of which is the program name, `main`
writes the single line `usage: <program-name> <pcre pattern>`, calls no collaborator (no
listing is requested, no pattern is compiled, no match is tried) and returns 0. -/
theorem main_usage_without_pattern (H : CompileOption → Nat) (E : Engine Code MD)
    (cFileList_List : String → List String) (argv : List String) (argp0 : String)
    (hargc : argv.length < 2) (hargp0 : argv[0]? = some argp0) :
    main H E cFileList_List argv =
      some
        { stdout := "usage: " ++ argp0 ++ " <pcre pattern>" ++ "\n"
          calls := []
          exit_code := 0 } ∧
    "usage: " ++ argp0 ++ " <pcre pattern>" ++ "\n" =
      lines_text ["usage: " ++ argp0 ++ " <pcre pattern>"] := by
  constructor
  · simp only [main, hargc, if_true, hargp0]
  · simp [lines_text]

theorem main_usage_without_pattern_witness :
    (["pcre2-test"].length < 2 ∧ ["pcre2-test"][0]? = some "pcre2-test") ∧
    main pcre2_h sample_engine (fun _ => ["b.mp4", "a.mp4", "c.txt"]) ["pcre2-test"] =
      some
        { stdout := "usage: " ++ "pcre2-test" ++ " <pcre pattern>" ++ "\n"
          calls := []
          exit_code := 0 } :=
  ⟨⟨by decide, rfl⟩,
    (main_usage_without_pattern pcre2_h sample_engine (fun _ => ["b.mp4", "a.mp4", "c.txt"])
      ["pcre2-test"] "pcre2-test" (by decide) rfl).1⟩

/-! ## The options passed to `pcre2_compile` -/

theorem and_two_pow_ne_zero_iff (x n : Nat) : x &&& 2 ^ n ≠ 0 ↔ x.testBit n = true := by
  constructor
  · intro h
    obtain ⟨i, hi⟩ := Nat.ne_zero_implies_bit_true h
    rw [Nat.testBit_and, Nat.testBit_two_pow, Bool.and_eq_true, decide_eq_true_eq] at hi
    rw [hi.2]
    exact hi.1
  · intro h h0
    have h1 : (x &&& 2 ^ n).testBit n = true := by
      rw [Nat.testBit_and, h, Nat.testBit_two_pow_self]
      rfl
    rw [h0, Nat.zero_testBit] at h1
    cases h1

theorem compile_options_testBit (H : CompileOption → Nat) (bit : CompileOption → Nat)
    (hbit : ∀ o, H o = 2 ^ bit o) (i : Nat) :
    (compile_options H).testBit i = true ↔
      bit PCRE2_CASELESS = i ∨ bit PCRE2_DUPNAMES = i ∨ bit PCRE2_NEVER_BACKSLASH_C = i ∨
        bit PCRE2_NEVER_UCP = i ∨ bit PCRE2_NO_UTF_CHECK = i ∨ bit PCRE2_UTF = i := by
  simp only [compile_options, hbit, Nat.zero_or, Nat.testBit_or, Nat.testBit_two_pow,
    Bool.or_eq_true, decide_eq_true_eq, or_assoc]

/-- C10. The constructor makes one call to `pcre2_compile`, with the pattern text and the
option word `compile_options`, which depends on neither the engine nor the pattern: whether
the constructor returns is whether that call does, and when it returns the call is the first
in its log and the only one to `pcre2_compile`.  Whenever the header gives every option macro
a bit of its own, the options set in that word are `PCRE2_CASELESS`, `PCRE2_DUPNAMES`,
`PCRE2_NEVER_BACKSLASH_C`, `PCRE2_NEVER_UCP`, `PCRE2_NO_UTF_CHECK` and `PCRE2_UTF` and no
other option, and the word has no bit set besides the bits of these six; so
`PCRE2_ANCHORED`, `PCRE2_ENDANCHORED`, `PCRE2_UCP`, `PCRE2_MULTILINE`, `PCRE2_DOTALL` and
`PCRE2_UNGREEDY` are not set. -/
theorem construct_compile_options_fixed (H : CompileOption → Nat) (E : Engine Code MD)
    (Pattern : String) (bit : CompileOption → Nat) (hbit : ∀ o, H o = 2 ^ bit o)
    (hinj : ∀ a b, bit a = bit b → a = b) :
    (Pcre2Match.construct H E Pattern = none ↔
      E.pcre2_compile (c_str Pattern) (compile_options H) = none) ∧
    (∀ r : Ret Code MD Unit, Pcre2Match.construct H E Pattern = some r →
      ∃ rest : List (Call Code MD),
        r.calls = Call.pcre2_compile (c_str Pattern) (compile_options H) :: rest ∧
        ∀ (p : String) (o : Nat), Call.pcre2_compile p o ∉ rest) ∧
    (∀ o : CompileOption, compile_options H &&& H o ≠ 0 ↔
      o ∈ [PCRE2_CASELESS, PCRE2_DUPNAMES, PCRE2_NEVER_BACKSLASH_C, PCRE2_NEVER_UCP,
        PCRE2_NO_UTF_CHECK, PCRE2_UTF]) ∧
    (∀ i : Nat, (compile_options H).testBit i = true ↔
      ∃ o ∈ [PCRE2_CASELESS, PCRE2_DUPNAMES, PCRE2_NEVER_BACKSLASH_C, PCRE2_NEVER_UCP,
        PCRE2_NO_UTF_CHECK, PCRE2_UTF], bit o = i) ∧
    (compile_options H &&& H PCRE2_ANCHORED = 0 ∧
      compile_options H &&& H PCRE2_ENDANCHORED = 0 ∧
      compile_options H &&& H PCRE2_UCP = 0 ∧ compile_options H &&& H PCRE2_MULTILINE = 0 ∧
      compile_options H &&& H PCRE2_DOTALL = 0 ∧ compile_options H &&& H PCRE2_UNGREEDY = 0) := by
  have hset : ∀ o : CompileOption, compile_options H &&& H o ≠ 0 ↔
      o ∈ [PCRE2_CASELESS, PCRE2_DUPNAMES, PCRE2_NEVER_BACKSLASH_C, PCRE2_NEVER_UCP,
        PCRE2_NO_UTF_CHECK, PCRE2_UTF] := by
    intro o
    rw [hbit o, and_two_pow_ne_zero_iff, compile_options_testBit H bit hbit]
    simp only [List.mem_cons, List.mem_singleton, List.not_mem_nil, or_false]
    constructor
    · intro h
      rcases h with h | h | h | h | h | h
      all_goals simp [hinj _ _ h]
    · intro h
      rcases h with h | h | h | h | h | h
      all_goals simp [h]
  have hunset : ∀ o : CompileOption,
      o ∉ [PCRE2_CASELESS, PCRE2_DUPNAMES, PCRE2_NEVER_BACKSLASH_C, PCRE2_NEVER_UCP,
        PCRE2_NO_UTF_CHECK, PCRE2_UTF] → compile_options H &&& H o = 0 := by
    intro o ho
    by_contra hne
    exact ho ((hset o).mp hne)
  refine ⟨construct_eq_none_iff H E Pattern, ?_, hset, ?_, hunset _ (by decide),
    hunset _ (by decide), hunset _ (by decide), hunset _ (by decide), hunset _ (by decide),
    hunset _ (by decide)⟩
  · intro r hr
    cases hc : E.pcre2_compile (c_str Pattern) (compile_options H) with
    | none =>
      rw [construct_of_none H E Pattern hc] at hr
      cases hr
    | some reply =>
      cases reply with
      | error e =>
        obtain ⟨errorcode, erroroffset⟩ := e
        rw [construct_of_error H E Pattern errorcode erroroffset hc] at hr
        cases hr
        exact ⟨_, rfl, by simp⟩
      | ok re =>
        rw [construct_of_ok H E Pattern re hc] at hr
        cases hr
        exact ⟨_, rfl, by simp⟩
  · intro i
    rw [compile_options_testBit H bit hbit]
    simp only [List.mem_cons, List.mem_singleton, List.not_mem_nil, or_false,
      exists_eq_or_imp, exists_eq_left]

theorem construct_compile_options_fixed_witness :
    ((∀ o, pcre2_h o = 2 ^ pcre2_h_bit o) ∧
      ∀ a b, pcre2_h_bit a = pcre2_h_bit b → a = b) ∧
    compile_options pcre2_h = 0x40180848 ∧
    (∀ i : Nat, (compile_options pcre2_h).testBit i = true ↔
      ∃ o ∈ [PCRE2_CASELESS, PCRE2_DUPNAMES, PCRE2_NEVER_BACKSLASH_C, PCRE2_NEVER_UCP,
        PCRE2_NO_UTF_CHECK, PCRE2_UTF], pcre2_h_bit o = i) :=
  have hbit : ∀ o, pcre2_h o = 2 ^ pcre2_h_bit o := fun o => by cases o <;> rfl
  have hinj : ∀ a b, pcre2_h_bit a = pcre2_h_bit b → a = b := fun a b h => by
    cases a <;> cases b <;> first | rfl | exact absurd h (by decide)
  ⟨⟨hbit, hinj⟩, by decide,
    (construct_compile_options_fixed pcre2_h sample_engine "" pcre2_h_bit hbit hinj).2.2.2.1⟩

end Pcre2Test
